import Mathlib

/-!
Verification of the JSON structural-compatibility checker and merger
(`src/lib/json-utils.ts`) against its design specification.

The core operates on parsed JavaScript values.  We model them with an
inductive type `JsValue` that includes `undefined` (JavaScript `undefined`):
parsed JSON documents never contain `undefined`, but the merge algorithm reads
absent object properties (`target[key]`), which evaluate to `undefined` in
JavaScript, and can store the result of merging with such a value back into
the output object, so `undefined` is observable in merge results.

JavaScript objects are modelled as association lists in insertion order
(property keys unique, as guaranteed for parsed JSON).
-/

set_option autoImplicit false

namespace MJson

/-- A JavaScript runtime value as it occurs in this program: `undefined`,
`null`, booleans, numbers, strings, arrays, and plain objects
(association lists in property insertion order). -/
inductive JsValue where
  | undefined
  | null
  | bool (b : Bool)
  | num (n : Int)
  | str (s : String)
  | arr (elems : List JsValue)
  | obj (props : List (String × JsValue))

/-- `Array.isArray`. -/
def isJsArray : JsValue → Bool
  | .arr _ => true
  | _ => false

/-- `v === null`. -/
def isJsNull : JsValue → Bool
  | .null => true
  | _ => false

/-- `v === null || v === undefined`. -/
def isNullish : JsValue → Bool
  | .null => true
  | .undefined => true
  | _ => false

/-- The JavaScript `typeof` operator on these values.  Note the classic
JavaScript behaviour `typeof null === "object"`. -/
def jsTypeof : JsValue → String
  | .undefined => "undefined"
  | .null => "object"
  | .bool _ => "boolean"
  | .num _ => "number"
  | .str _ => "string"
  | .arr _ => "object"
  | .obj _ => "object"

/-- JavaScript property read `props[k]`: the value of the first entry with
key `k`, or `undefined` when the key is absent. -/
def objGet (props : List (String × JsValue)) (k : String) : JsValue :=
  match props.find? (fun p => p.1 == k) with
  | some p => p.2
  | none => .undefined

/-- JavaScript property write `props[k] = v`: replaces the value of an
existing key in place (keeping its position), otherwise appends the new
entry at the end. -/
def objSet : List (String × JsValue) → String → JsValue → List (String × JsValue)
  | [], k, v => [(k, v)]
  | p :: rest, k, v => if p.1 == k then (k, v) :: rest else p :: objSet rest k v

/-- An uploaded file as in `src/types/json.ts` (`JsonFile`); the checker and
merger read only `name` and `content`. -/
structure JsonFile where
  id : String := ""
  name : String
  content : JsValue
  size : Nat := 0

/-- `ValidationResult` from `src/types/json.ts`. -/
structure ValidationResult where
  isValid : Bool
  error : Option String := none
  structureHash : Option String := none
deriving DecidableEq

/-- `MergeResult` from `src/types/json.ts`. -/
structure MergeResult where
  success : Bool
  data : Option JsValue := none
  error : Option String := none

/-- `generateCompatibleStructureHash` from `src/lib/json-utils.ts`: the coarse
shape fingerprint gating mergeability.  Arrays and (non-null) objects map to
constant tags; anything else maps to `JSON.stringify(typeof obj)`.  Because
`typeof null === "object"`, the fingerprint of `null` is the quoted string
`"object"`. -/
def generateCompatibleStructureHash (v : JsValue) : String :=
  if isJsArray v then "[\"array\",\"flexible-object\"]"
  else if jsTypeof v == "object" && !isJsNull v then "[\"object\",\"flexible-properties\"]"
  else "\"" ++ jsTypeof v ++ "\""

/-- The per-file entry of the `compatibleStructures` array computed in the
array branch of `validateStructureConsistency`: `null` (here `none`) for an
empty array, otherwise the fingerprint of the first element (of the content
itself when it is not an array). -/
def arrayElementHash (f : JsonFile) : Option String :=
  match f.content with
  | .arr [] => none
  | .arr (x :: _) => some (generateCompatibleStructureHash x)
  | w => some (generateCompatibleStructureHash w)

/-- `validateStructureConsistency` from `src/lib/json-utils.ts`.  Each
`for`-loop that returns on the first offending file is rendered with
`List.find?` (the first element satisfying the failure condition). -/
def validateStructureConsistency (files : List JsonFile) : ValidationResult :=
  match files with
  | [] => { isValid := false, error := some "No files to validate" }
  | [_] => { isValid := true }
  | f0 :: rest =>
    let isFirstArray := isJsArray f0.content
    match rest.find? (fun f => isJsArray f.content != isFirstArray) with
    | some f =>
      { isValid := false
        error := some ("File \"" ++ f.name ++ "\" has different root type than \"" ++
          f0.name ++ "\" (array vs object)") }
    | none =>
      if isFirstArray then
        let base := arrayElementHash f0
        match rest.find? (fun f =>
            match arrayElementHash f, base with
            | some h, some b => h != b
            | _, _ => false) with
        | some f =>
          { isValid := false
            error := some ("File \"" ++ f.name ++ "\" has incompatible array element structure than \"" ++
              f0.name ++ "\"") }
        | none => { isValid := true }
      else
        let base := generateCompatibleStructureHash f0.content
        match rest.find? (fun f => generateCompatibleStructureHash f.content != base) with
        | some f =>
          { isValid := false
            error := some ("File \"" ++ f.name ++ "\" has incompatible object structure than \"" ++
              f0.name ++ "\"") }
        | none => { isValid := true }

mutual

/-- `deepMerge` from `src/lib/json-utils.ts`.  A nullish source leaves the
target unchanged; a nullish target is replaced by the source; two arrays
concatenate; two objects merge key-wise via `mergeProps`; every other
combination returns the source (last wins). -/
def deepMerge (target source : JsValue) : JsValue :=
  if isNullish source then target
  else if isNullish target then source
  else
    match target, source with
    | .arr t, .arr s => .arr (t ++ s)
    | .obj t, .obj s => .obj (mergeProps t t s)
    | _, _ => source

/-- The `for (const key in source)` loop of `deepMerge` on two objects:
starting from `acc = {...target}`, set `acc[key] = deepMerge(target[key],
source[key])` for each source entry in order (`t` stays the original
target). -/
def mergeProps (t acc : List (String × JsValue)) : List (String × JsValue) → List (String × JsValue)
  | [] => acc
  | (k, v) :: rest => mergeProps t (objSet acc k (deepMerge (objGet t k) v)) rest

end

/-- `mergeJsonFiles` from `src/lib/json-utils.ts`: reject an empty file list,
validate structure consistency, then fold `deepMerge` over the documents
starting from an empty array or empty object matching the first file's root
kind. -/
def mergeJsonFiles (files : List JsonFile) : MergeResult :=
  match files with
  | [] => { success := false, error := some "No files to merge" }
  | f0 :: _ =>
    let structureValidation := validateStructureConsistency files
    if structureValidation.isValid then
      let seed := if isJsArray f0.content then JsValue.arr [] else JsValue.obj []
      { success := true
        data := some (files.foldl (fun acc f => deepMerge acc f.content) seed) }
    else
      { success := false, error := structureValidation.error }

/-- `k in props`: the object has an entry with key `k`. -/
def containsKey (props : List (String × JsValue)) (k : String) : Bool :=
  props.any (fun p => p.1 == k)

/-- The value stored under `k`, if the key is present. -/
def lookupProp (props : List (String × JsValue)) (k : String) : Option JsValue :=
  (props.find? (fun p => p.1 == k)).map Prod.snd

/-- Statement helper: a Map-root document built from a name and a property
list. -/
def toObjFile (p : String × List (String × JsValue)) : JsonFile :=
  { name := p.1, content := .obj p.2 }

/-- Statement helper: a List-root document built from a name and an element
list. -/
def toArrFile (p : String × List JsValue) : JsonFile :=
  { name := p.1, content := .arr p.2 }

section Lemmas

theorem deepMerge_source_nullish (t s : JsValue) (h : isNullish s = true) :
    deepMerge t s = t := by
  cases s with
  | null => rfl
  | undefined => rfl
  | _ => simp [isNullish] at h

theorem deepMerge_arr_arr (t s : List JsValue) :
    deepMerge (.arr t) (.arr s) = .arr (t ++ s) := by
  rw [deepMerge]; rfl

theorem deepMerge_obj_obj (t s : List (String × JsValue)) :
    deepMerge (.obj t) (.obj s) = .obj (mergeProps t t s) := by
  rw [deepMerge]; rfl

theorem deepMerge_undef_target (v : JsValue) (h : isJsNull v = false) :
    deepMerge .undefined v = v := by
  cases v <;> simp_all [deepMerge, isNullish, isJsNull]

@[simp] theorem objGet_nil (k : String) : objGet [] k = .undefined := rfl

theorem objGet_cons (p : String × JsValue) (rest : List (String × JsValue)) (k : String) :
    objGet (p :: rest) k = if p.1 == k then p.2 else objGet rest k := by
  by_cases h : p.1 = k
  · subst h; simp [objGet, List.find?_cons_of_pos]
  · have hb : (p.1 == k) = false := by simpa using h
    simp [objGet, List.find?_cons_of_neg, hb]

@[simp] theorem containsKey_nil (k : String) : containsKey [] k = false := rfl

theorem containsKey_cons (p : String × JsValue) (rest : List (String × JsValue)) (k : String) :
    containsKey (p :: rest) k = (p.1 == k || containsKey rest k) := by
  simp [containsKey]

theorem objSet_of_not_contains (props : List (String × JsValue)) (k : String) (v : JsValue)
    (h : containsKey props k = false) : objSet props k v = props ++ [(k, v)] := by
  induction props with
  | nil => rfl
  | cons p rest ih =>
    rw [containsKey_cons] at h
    simp only [Bool.or_eq_false_iff] at h
    obtain ⟨hp, hr⟩ := h
    simp [objSet, hp, ih hr]

theorem objGet_objSet_same (props : List (String × JsValue)) (k : String) (v : JsValue) :
    objGet (objSet props k v) k = v := by
  induction props with
  | nil => simp [objSet, objGet, List.find?_cons_of_pos]
  | cons p rest ih =>
    by_cases h : p.1 = k
    · subst h; simp [objSet, objGet, List.find?_cons_of_pos]
    · have hb : (p.1 == k) = false := by simpa using h
      simp [objSet, hb, objGet_cons, ih]

theorem objGet_objSet_other (props : List (String × JsValue)) (k k' : String) (v : JsValue)
    (h : (k == k') = false) : objGet (objSet props k v) k' = objGet props k' := by
  induction props with
  | nil => simp [objSet, objGet_cons, h]
  | cons p rest ih =>
    by_cases hp : p.1 = k
    · subst hp
      simp [objSet, objGet_cons, h]
    · have hb : (p.1 == k) = false := by simpa using hp
      simp [objSet, hb, objGet_cons, ih]

theorem containsKey_objSet (props : List (String × JsValue)) (k k' : String) (v : JsValue) :
    containsKey (objSet props k v) k' = (containsKey props k' || k == k') := by
  induction props with
  | nil => simp [objSet, containsKey_cons]
  | cons p rest ih =>
    by_cases hp : p.1 = k
    · subst hp
      simp only [objSet, beq_self_eq_true, if_true, containsKey_cons]
      cases hkk : p.1 == k' <;> cases hr : containsKey rest k' <;> simp [hkk, hr]
    · have hb : (p.1 == k) = false := by simpa using hp
      simp only [objSet, hb, if_false, containsKey_cons, ih]
      cases hkk : p.1 == k' <;> cases hr : containsKey rest k' <;> cases hk : k == k' <;>
        simp [containsKey_cons, ih, hkk, hr, hk]

theorem containsKey_append (a b : List (String × JsValue)) (k : String) :
    containsKey (a ++ b) k = (containsKey a k || containsKey b k) := by
  simp [containsKey, List.any_append]

theorem find?_eq_none_of_not_mem (props : List (String × JsValue)) (k : String)
    (h : k ∉ props.map Prod.fst) : props.find? (fun p => p.1 == k) = none := by
  rw [List.find?_eq_none]
  intro p hp hpk
  exact h (List.mem_map.mpr ⟨p, hp, by simpa using hpk⟩)

theorem containsKey_mergeProps (s : List (String × JsValue)) (t acc : List (String × JsValue))
    (k : String) :
    containsKey (mergeProps t acc s) k = (containsKey acc k || containsKey s k) := by
  induction s generalizing acc with
  | nil => simp [mergeProps]
  | cons q rest ih =>
    obtain ⟨k₀, v₀⟩ := q
    rw [mergeProps, ih, containsKey_objSet, containsKey_cons]
    cases containsKey acc k <;> cases (k₀ == k) <;> cases containsKey rest k <;> rfl

theorem objGet_mergeProps (s : List (String × JsValue)) (t acc : List (String × JsValue))
    (k : String) (hnd : (s.map Prod.fst).Nodup) :
    objGet (mergeProps t acc s) k =
      match s.find? (fun p => p.1 == k) with
      | some p => deepMerge (objGet t k) p.2
      | none => objGet acc k := by
  induction s generalizing acc with
  | nil => simp [mergeProps]
  | cons q rest ih =>
    obtain ⟨k₀, v₀⟩ := q
    rw [List.map_cons, List.nodup_cons] at hnd
    obtain ⟨hk₀, hndr⟩ := hnd
    rw [mergeProps]
    by_cases hk : k₀ = k
    · subst hk
      rw [List.find?_cons_of_pos _ (by simp), ih _ hndr,
        find?_eq_none_of_not_mem rest k₀ hk₀]
      exact objGet_objSet_same ..
    · have hb : (k₀ == k) = false := by simpa using hk
      rw [List.find?_cons_of_neg _ (by simpa using hk), ih _ hndr]
      cases hfind : rest.find? (fun p => p.1 == k) with
      | some p => rfl
      | none => exact objGet_objSet_other _ _ _ _ hb

/-- Folding `deepMerge` over Map-root documents starting from an object
accumulator yields an object whose key set is the union of the
accumulator's keys and all documents' keys, and whose value at each key is
the left fold of `deepMerge` over that key's values in upload order. -/
theorem foldl_deepMerge_obj (docs : List (String × List (String × JsValue)))
    (A : List (String × JsValue))
    (hnd : ∀ p ∈ docs, (p.2.map Prod.fst).Nodup) :
    ∃ M : List (String × JsValue),
      List.foldl (fun acc f => deepMerge acc f.content) (.obj A) (docs.map toObjFile) = .obj M ∧
      (∀ k, containsKey M k = (containsKey A k || docs.any (fun p => containsKey p.2 k))) ∧
      (∀ k, objGet M k =
        (docs.filterMap (fun p => lookupProp p.2 k)).foldl deepMerge (objGet A k)) := by
  induction docs generalizing A with
  | nil => exact ⟨A, rfl, by simp, by simp⟩
  | cons p rest ih =>
    have hp := hnd p (by simp)
    have hrest : ∀ q ∈ rest, (q.2.map Prod.fst).Nodup := fun q hq => hnd q (by simp [hq])
    obtain ⟨M, hM, hMmem, hMget⟩ := ih (mergeProps A A p.2) hrest
    refine ⟨M, ?_, ?_, ?_⟩
    · rw [List.map_cons, List.foldl_cons, toObjFile, deepMerge_obj_obj]
      exact hM
    · intro k
      rw [hMmem k, containsKey_mergeProps, List.any_cons, Bool.or_assoc]
    · intro k
      rw [hMget k, objGet_mergeProps _ _ _ _ hp, List.filterMap_cons]
      cases hfind : p.2.find? (fun q => q.1 == k) with
      | some q => simp [lookupProp, hfind]
      | none => simp [lookupProp, hfind]

/-- Folding `deepMerge` over List-root documents starting from an array
accumulator concatenates all element lists in order. -/
theorem foldl_deepMerge_arr (docs : List (String × List JsValue)) (A : List JsValue) :
    List.foldl (fun acc f => deepMerge acc f.content) (.arr A) (docs.map toArrFile) =
      .arr (A ++ (docs.map Prod.snd).flatten) := by
  induction docs generalizing A with
  | nil => simp
  | cons p rest ih =>
    rw [List.map_cons, List.foldl_cons, toArrFile, deepMerge_arr_arr, ih,
      List.map_cons, List.flatten_cons, List.append_assoc]

/-- `mergeProps` with an empty original target, landing on keys disjoint
from the accumulator and carrying no `null` values, appends the source
entries unchanged. -/
theorem mergeProps_nil_target (s acc : List (String × JsValue))
    (hnull : ∀ p ∈ s, isJsNull p.2 = false)
    (hdisj : ∀ p ∈ s, containsKey acc p.1 = false)
    (hnd : (s.map Prod.fst).Nodup) :
    mergeProps [] acc s = acc ++ s := by
  induction s generalizing acc with
  | nil => simp [mergeProps]
  | cons q rest ih =>
    obtain ⟨k₀, v₀⟩ := q
    rw [List.map_cons, List.nodup_cons] at hnd
    obtain ⟨hk₀, hndr⟩ := hnd
    have hv₀ : isJsNull v₀ = false := hnull (k₀, v₀) (by simp)
    have hd₀ : containsKey acc k₀ = false := hdisj (k₀, v₀) (by simp)
    have hnull' : ∀ p ∈ rest, isJsNull p.2 = false := fun p hp => hnull p (by simp [hp])
    have hdisj' : ∀ p ∈ rest, containsKey (acc ++ [(k₀, v₀)]) p.1 = false := by
      intro p hp
      have hk : (k₀ == p.1) = false := by
        have hne : k₀ ≠ p.1 := by
          intro he
          exact hk₀ (by rw [he]; exact List.mem_map.mpr ⟨p, hp, rfl⟩)
        simpa using hne
      rw [containsKey_append, hdisj p (by simp [hp]), containsKey_cons, hk]
      rfl
    rw [mergeProps, objGet_nil, deepMerge_undef_target v₀ hv₀,
      objSet_of_not_contains acc k₀ v₀ hd₀, ih _ hnull' hdisj' hndr]
    simp

theorem find?_first_offender {α : Type} (pred : α → Bool) (pre post : List α) (bad : α)
    (hpre : ∀ f ∈ pre, pred f = false) (hbad : pred bad = true) :
    (pre ++ bad :: post).find? pred = some bad := by
  induction pre with
  | nil => simp [List.find?_cons_of_pos _ hbad]
  | cons a l ih =>
    rw [List.cons_append, List.find?_cons_of_neg _ (by simp [hpre a (by simp)]),
      ih (fun f hf => hpre f (by simp [hf]))]

/-- The structure check accepts any non-empty list of Map-root files: the
root-kind loop finds no mismatch and every Map-root file has the same
constant compatible-structure hash. -/
theorem validate_obj_roots (p0 : String × List (String × JsValue))
    (rest : List (String × List (String × JsValue))) :
    validateStructureConsistency ((p0 :: rest).map toObjFile) = { isValid := true } := by
  cases rest with
  | nil => rfl
  | cons q rs =>
    have h1 : (toObjFile q :: List.map toObjFile rs).find?
        (fun f => isJsArray f.content != isJsArray (toObjFile p0).content) = none := by
      rw [List.find?_eq_none]
      intro f hf
      rcases List.mem_cons.mp hf with rfl | hf'
      · simp [toObjFile, isJsArray]
      · obtain ⟨r, _, rfl⟩ := List.mem_map.mp hf'
        simp [toObjFile, isJsArray]
    have h2 : (toObjFile q :: List.map toObjFile rs).find?
        (fun f => generateCompatibleStructureHash f.content !=
          generateCompatibleStructureHash (toObjFile p0).content) = none := by
      rw [List.find?_eq_none]
      intro f hf
      rcases List.mem_cons.mp hf with rfl | hf'
      · simp [toObjFile, generateCompatibleStructureHash, isJsArray, jsTypeof, isJsNull]
      · obtain ⟨r, _, rfl⟩ := List.mem_map.mp hf'
        simp [toObjFile, generateCompatibleStructureHash, isJsArray, jsTypeof, isJsNull]
    simp only [List.map_cons] at h1 h2 ⊢
    rw [validateStructureConsistency]
    simp only [h1, h2]
    · simp [toObjFile, isJsArray]
    · simp

/-- The structure check accepts any non-empty list of List-root files whose
first file's root is the empty list: the base hash is the `null` sentinel,
so every element-structure comparison is skipped. -/
theorem validate_arr_empty_base (n0 : String) (docs : List (String × List JsValue)) :
    validateStructureConsistency
      (({ name := n0, content := .arr [] } : JsonFile) :: docs.map toArrFile) =
      { isValid := true } := by
  cases docs with
  | nil => rfl
  | cons q rs =>
    have h1 : (toArrFile q :: List.map toArrFile rs).find?
        (fun f => isJsArray f.content !=
          isJsArray (({ name := n0, content := .arr [] } : JsonFile)).content) = none := by
      rw [List.find?_eq_none]
      intro f hf
      rcases List.mem_cons.mp hf with rfl | hf'
      · simp [toArrFile, isJsArray]
      · obtain ⟨r, _, rfl⟩ := List.mem_map.mp hf'
        simp [toArrFile, isJsArray]
    have h2 : (toArrFile q :: List.map toArrFile rs).find?
        (fun f => match arrayElementHash f,
            arrayElementHash ({ name := n0, content := .arr [] } : JsonFile) with
          | some h, some b => h != b
          | _, _ => false) = none := by
      rw [List.find?_eq_none]
      intro f hf
      cases harr : arrayElementHash f <;> simp [arrayElementHash, harr]
    simp only [List.map_cons] at h1 h2 ⊢
    rw [validateStructureConsistency]
    simp only [h1, h2]
    · simp [isJsArray]
    · simp

end Lemmas

section Claims

/-- C1 counterexample: merging `{"a":[1,2]}` with `{"a":[3],"d":null}` does
NOT produce `{"a":[1,2,3],"d":null}`: the key `d`, present only in the
second document with value `null`, comes out bound to `undefined` (because
`deepMerge(undefined, null)` returns the `undefined` target), not `null`. -/
theorem C1_counterexample :
    mergeJsonFiles
      [ { name := "a.json", content := .obj [("a", .arr [.num 1, .num 2])] },
        { name := "b.json", content := .obj [("a", .arr [.num 3]), ("d", .null)] } ] =
      { success := true,
        data := some (.obj [("a", .arr [.num 1, .num 2, .num 3]), ("d", .undefined)]) } ∧
    JsValue.obj [("a", .arr [.num 1, .num 2, .num 3]), ("d", .undefined)] ≠
      JsValue.obj [("a", .arr [.num 1, .num 2, .num 3]), ("d", .null)] := by
  exact ⟨rfl, by simp⟩

/-- C1 (amended): for the documents `{"a":[1,2]}` and `{"a":[3],"d":null}`,
merge returns ok=true; nested lists under the shared key `a` are
concatenated to `[1,2,3]`, and the key `d`, present only in the second
document with value `null`, appears in the output bound to `undefined`
(dropped on JSON serialization), not to `null`. -/
theorem C1_merge_scenario3 :
    mergeJsonFiles
      [ { name := "a.json", content := .obj [("a", .arr [.num 1, .num 2])] },
        { name := "b.json", content := .obj [("a", .arr [.num 3]), ("d", .null)] } ] =
      { success := true,
        data := some (.obj [("a", .arr [.num 1, .num 2, .num 3]), ("d", .undefined)]) } := rfl

/-- C3 counterexample: the shape fingerprint of `Null` is not the scalar
kind name "null" (quoted or not); because JavaScript evaluates
`typeof null` to "object", it is the quoted string `"object"`. -/
theorem C3_counterexample :
    generateCompatibleStructureHash JsValue.null ≠ "null" ∧
    generateCompatibleStructureHash JsValue.null ≠ "\"null\"" ∧
    generateCompatibleStructureHash JsValue.null = "\"object\"" := by
  refine ⟨by decide, by decide, rfl⟩

/-- C3 (amended): the shape fingerprint is the constant array tag for every
List, the constant object tag for every Map, and the quoted JavaScript
`typeof` name for scalars — so fingerprint(Null) is the quoted string
`"object"` (not "null"), which is still distinct from the Map fingerprint;
hence a List root whose first element is null and one whose first element
is a Map have different fingerprints. -/
theorem C3_fingerprint_characterization :
    (∀ xs : List JsValue,
      generateCompatibleStructureHash (.arr xs) = "[\"array\",\"flexible-object\"]") ∧
    (∀ kvs : List (String × JsValue),
      generateCompatibleStructureHash (.obj kvs) = "[\"object\",\"flexible-properties\"]") ∧
    (∀ b : Bool, generateCompatibleStructureHash (.bool b) = "\"boolean\"") ∧
    (∀ n : Int, generateCompatibleStructureHash (.num n) = "\"number\"") ∧
    (∀ s : String, generateCompatibleStructureHash (.str s) = "\"string\"") ∧
    generateCompatibleStructureHash .null = "\"object\"" ∧
    (∀ kvs : List (String × JsValue),
      generateCompatibleStructureHash .null ≠ generateCompatibleStructureHash (.obj kvs)) := by
  refine ⟨fun xs => rfl, fun kvs => rfl, fun b => rfl, fun n => rfl, fun s => rfl, rfl,
    fun kvs => ?_⟩
  intro h
  rw [show generateCompatibleStructureHash (.obj kvs) =
    "[\"object\",\"flexible-properties\"]" from rfl] at h
  exact absurd h (by decide)

/-- C6: for every non-empty sequence of Map-root documents, the
compatibility check returns ok=true regardless of which keys or nested
shapes each Map contains. -/
theorem C6_validate_obj_always_ok (p0 : String × List (String × JsValue))
    (rest : List (String × List (String × JsValue))) :
    validateStructureConsistency ((p0 :: rest).map toObjFile) = { isValid := true } :=
  validate_obj_roots p0 rest

/-- C9: merging the empty document sequence fails with no value and the
reason "No files to merge" (the code's wording of "no documents"). -/
theorem C9_merge_empty :
    mergeJsonFiles [] =
      { success := false, data := none, error := some "No files to merge" } := rfl

/-- C10: if the first document's root is an empty List, the compatibility
check accepts every sequence of List-root documents — the base fingerprint
is the `null` sentinel, so every element-shape comparison is skipped, even
when later documents' element fingerprints differ from each other. -/
theorem C10_empty_base_skips_element_check (n0 : String)
    (docs : List (String × List JsValue)) :
    validateStructureConsistency
      (({ name := n0, content := .arr [] } : JsonFile) :: docs.map toArrFile) =
      { isValid := true } :=
  validate_arr_empty_base n0 docs

/-- C2 counterexample: merging the single document `{"d":null}` does not
return it unchanged — the top-level `null` value is replaced by
`undefined` (because `deepMerge(undefined, null)` returns the `undefined`
read from the empty seed object). -/
theorem C2_counterexample :
    mergeJsonFiles [ { name := "a.json", content := .obj [("d", .null)] } ] =
      { success := true, data := some (.obj [("d", .undefined)]) } ∧
    JsValue.obj [("d", .undefined)] ≠ JsValue.obj [("d", .null)] := by
  exact ⟨rfl, by simp⟩

/-- C2 (amended): merging a single document returns its root unchanged when
the root is a List, or a Map (with unique keys) none of whose top-level
values is Null; a top-level Null value would instead come out bound to
`undefined`. -/
theorem C2_merge_single_identity (f : JsonFile)
    (h : (∃ xs, f.content = .arr xs) ∨
      (∃ kvs, f.content = .obj kvs ∧ (kvs.map Prod.fst).Nodup ∧
        ∀ p ∈ kvs, isJsNull p.2 = false)) :
    mergeJsonFiles [f] = { success := true, data := some f.content } := by
  obtain ⟨xs, hx⟩ | ⟨kvs, hx, hnd, hnull⟩ := h
  · simp [mergeJsonFiles, validateStructureConsistency, hx, isJsArray, deepMerge_arr_arr]
  · have hm : mergeProps [] [] kvs = kvs := by
      simpa using mergeProps_nil_target kvs [] hnull (fun p _ => rfl) hnd
    simp [mergeJsonFiles, validateStructureConsistency, hx, isJsArray, deepMerge_obj_obj, hm]

/-- C2 witness: a single Map-root document with non-null values merges to
itself. -/
theorem C2_witness :
    mergeJsonFiles [ { name := "a.json", content := .obj [("a", .num 1), ("b", .str "x")] } ] =
      { success := true, data := some (.obj [("a", .num 1), ("b", .str "x")]) } :=
  C2_merge_single_identity _
    (Or.inr ⟨[("a", .num 1), ("b", .str "x")], rfl, by decide, by decide⟩)

/-- C4 counterexample: for the Map-root documents `{"a":1}` and `{"d":null}`
the key `d` is present in exactly one document, yet the merged map binds it
to `undefined`, not to that document's value `null`. -/
theorem C4_counterexample :
    mergeJsonFiles [ { name := "f1.json", content := .obj [("a", .num 1)] },
                     { name := "f2.json", content := .obj [("d", .null)] } ] =
      { success := true, data := some (.obj [("a", .num 1), ("d", .undefined)]) } ∧
    JsValue.undefined ≠ JsValue.null := by
  exact ⟨rfl, by simp⟩

/-- C4 (amended): merging Map-root documents (unique keys per document)
yields a Map containing exactly the keys present in some input document;
the value at each key is the left fold of `deepMerge` over that key's
values in upload order starting from `undefined` — the recursive merge
with later scalars overriding earlier ones, except that a Null value
merged onto an absent key yields `undefined` rather than Null. -/
theorem C4_merge_obj_characterization (p0 : String × List (String × JsValue))
    (rest : List (String × List (String × JsValue)))
    (hnd : ∀ p ∈ p0 :: rest, (p.2.map Prod.fst).Nodup) :
    ∃ M : List (String × JsValue),
      mergeJsonFiles ((p0 :: rest).map toObjFile) =
        { success := true, data := some (.obj M) } ∧
      (∀ k, containsKey M k = (p0 :: rest).any (fun p => containsKey p.2 k)) ∧
      (∀ k, objGet M k =
        ((p0 :: rest).filterMap (fun p => lookupProp p.2 k)).foldl deepMerge .undefined) := by
  obtain ⟨M, hM, hmem, hget⟩ := foldl_deepMerge_obj (p0 :: rest) [] hnd
  refine ⟨M, ?_, ?_, ?_⟩
  · have hval := validate_obj_roots p0 rest
    rw [List.map_cons] at hval hM ⊢
    simp only [mergeJsonFiles]
    rw [hval]
    rw [List.foldl_cons] at hM
    simp only [toObjFile] at hM
    simp [toObjFile, isJsArray]
    exact hM
  · intro k
    rw [hmem k]
    simp
  · intro k
    simpa using hget k

/-- C4 witness: two concrete Map-root documents sharing the key `x`. -/
theorem C4_witness :
    ∃ M : List (String × JsValue),
      mergeJsonFiles ((("a.json", [("x", JsValue.num 1)]) ::
          [("b.json", [("x", JsValue.num 2), ("y", JsValue.null)])]).map toObjFile) =
        { success := true, data := some (.obj M) } ∧
      (∀ k, containsKey M k =
        (("a.json", [("x", JsValue.num 1)]) ::
          [("b.json", [("x", JsValue.num 2), ("y", JsValue.null)])]).any
          (fun p => containsKey p.2 k)) ∧
      (∀ k, objGet M k =
        ((("a.json", [("x", JsValue.num 1)]) ::
          [("b.json", [("x", JsValue.num 2), ("y", JsValue.null)])]).filterMap
          (fun p => lookupProp p.2 k)).foldl deepMerge .undefined) :=
  C4_merge_obj_characterization ("a.json", [("x", JsValue.num 1)])
    [("b.json", [("x", JsValue.num 2), ("y", JsValue.null)])] (by decide)

/-- C5: merging compatible List-root documents concatenates all root lists
in upload order (the flattening of the element lists), with no
deduplication and no element-wise merging. -/
theorem C5_merge_arr_concat (p0 : String × List JsValue) (rest : List (String × List JsValue))
    (hok : (validateStructureConsistency ((p0 :: rest).map toArrFile)).isValid = true) :
    mergeJsonFiles ((p0 :: rest).map toArrFile) =
      { success := true, data := some (.arr ((p0 :: rest).map Prod.snd).flatten) } := by
  have hfold := foldl_deepMerge_arr (p0 :: rest) []
  rw [List.map_cons] at hok hfold ⊢
  simp only [mergeJsonFiles]
  rw [hok]
  rw [List.foldl_cons] at hfold
  simp only [toArrFile, List.map_cons, List.flatten_cons, List.nil_append] at hfold
  simp [toArrFile, isJsArray]
  exact hfold

/-- C5 witness: `[1]` and `[2,3]` merge to the concatenation `[1,2,3]`. -/
theorem C5_witness :
    mergeJsonFiles ((("a.json", [JsValue.num 1]) ::
        [("b.json", [JsValue.num 2, JsValue.num 3])]).map toArrFile) =
      { success := true,
        data := some (.arr ((("a.json", [JsValue.num 1]) ::
          [("b.json", [JsValue.num 2, JsValue.num 3])]).map Prod.snd).flatten) } :=
  C5_merge_arr_concat ("a.json", [JsValue.num 1])
    [("b.json", [JsValue.num 2, JsValue.num 3])] rfl

/-- C7 counterexample: on the empty document sequence the checker fails
with reason "No files to validate" but merge fails with the different
reason "No files to merge", so merge's reason does not always equal the
checker's reason. -/
theorem C7_counterexample :
    validateStructureConsistency ([] : List JsonFile) =
      { isValid := false, error := some "No files to validate" } ∧
    mergeJsonFiles ([] : List JsonFile) =
      { success := false, error := some "No files to merge" } ∧
    ("No files to merge" : String) ≠ "No files to validate" := by
  exact ⟨rfl, rfl, by decide⟩

/-- C7 (amended): for every non-empty document sequence on which the
compatibility check fails, merge fails with the checker's reason and no
merged value; on the empty sequence both fail but with different reason
strings. -/
theorem C7_merge_propagates_checker_failure (f0 : JsonFile) (rest : List JsonFile)
    (e : String)
    (h : validateStructureConsistency (f0 :: rest) = { isValid := false, error := some e }) :
    mergeJsonFiles (f0 :: rest) = { success := false, error := some e } := by
  simp [mergeJsonFiles, h]

/-- C7 witness: a root-kind mismatch propagates the checker's reason
through merge. -/
theorem C7_witness :
    mergeJsonFiles
      [ { name := "a.json", content := .arr [.num 1] },
        { name := "b.json", content := .obj [("x", .num 1)] } ] =
      { success := false,
        error := some "File \"b.json\" has different root type than \"a.json\" (array vs object)" } :=
  C7_merge_propagates_checker_failure _ _ _ rfl

/-- C8: when some document's root coarse kind differs from document 0's,
the checker fails at the FIRST offending document, with a single reason
naming that document, document 0, and "array vs object". -/
theorem C8_first_root_mismatch (f0 bad : JsonFile) (pre post : List JsonFile)
    (hpre : ∀ f ∈ pre, isJsArray f.content = isJsArray f0.content)
    (hbad : isJsArray bad.content ≠ isJsArray f0.content) :
    validateStructureConsistency (f0 :: (pre ++ bad :: post)) =
      { isValid := false,
        error := some ("File \"" ++ bad.name ++ "\" has different root type than \"" ++
          f0.name ++ "\" (array vs object)") } := by
  have hfind : (pre ++ bad :: post).find?
      (fun f => isJsArray f.content != isJsArray f0.content) = some bad :=
    find?_first_offender _ pre post bad
      (fun f hf => by rw [hpre f hf]; simp)
      (by simpa using hbad)
  cases pre with
  | nil =>
    rw [List.nil_append] at hfind ⊢
    simp only [validateStructureConsistency]
    rw [hfind]
  | cons a l =>
    rw [List.cons_append] at hfind ⊢
    simp only [validateStructureConsistency]
    rw [hfind]

/-- C8 witness: an object-root file following an array-root file triggers
the root-kind failure naming both files. -/
theorem C8_witness :
    validateStructureConsistency
      (({ name := "a.json", content := .arr [.num 1] } : JsonFile) ::
        ([] ++ ({ name := "b.json", content := .obj [("x", .num 1)] } : JsonFile) :: [])) =
      { isValid := false,
        error := some ("File \"" ++ "b.json" ++ "\" has different root type than \"" ++
          "a.json" ++ "\" (array vs object)") } :=
  C8_first_root_mismatch _ _ [] [] (by simp) (by decide)

end Claims

end MJson
